import Mathlib

/- Verification development for the lpc55-usbhs USB high-speed device driver.
   The definitions below are a shallow embedding of the code in
   src/hal/constants.rs, src/hal/endpoint_memory.rs and src/usbbus.rs:
   the endpoint SRAM bump allocator, the endpoint buffer views, the bus
   poll decode state machine and the endpoint allocation and read/write
   dispatch logic. Hardware registers are modelled as explicit state;
   write-one-to-clear register writes are modelled by their per-field
   effect as used by the driver. -/

namespace LpcUsbHS

/-! Constants, from src/hal/constants.rs. -/

/-- Number of physical endpoints, including control (constants.rs). -/
def NUM_ENDPOINTS : Nat := 1 + 5

/-- Bytes per endpoint register entry (constants.rs). -/
def BYTES_PER_EP_REGISTER : Nat := 4 * 4

/-- Base address of the USB1 SRAM (constants.rs). -/
def USB1_SRAM_ADDR : Nat := 0x40100000

/-- Endpoint memory region base address (constants.rs). -/
def EP_MEM_ADDR : Nat := USB1_SRAM_ADDR

/-- Endpoint memory region total size (constants.rs). -/
def EP_MEM_SIZE : Nat := 0x4000

/-- Size of the reserved endpoint register (descriptor) header region. -/
def EP_REGISTERS_SIZE : Nat := NUM_ENDPOINTS * BYTES_PER_EP_REGISTER

/-- The usb_device error values this driver returns. -/
inductive UsbError where
  | EndpointMemoryOverflow
  | EndpointOverflow
  | InvalidEndpoint
deriving DecidableEq

/-- An allocated endpoint buffer handle. In the source, EndpointBuffer is a
slice of volatile byte cells viewing SRAM at [offset, offset + capacity);
the observables of the handle are its offset (EndpointBuffer::offset) and
the slice length (EndpointBuffer::capacity). -/
structure EndpointBuffer where
  offset : Nat
  capacity : Nat
deriving DecidableEq

/-- EndpointBuffer::is_empty: true iff the viewed slice has length 0. -/
def EndpointBuffer.is_empty (b : EndpointBuffer) : Bool := b.capacity == 0

/-- Modelled from the spec: section 3 describes a default/empty handle
(capacity 0) denoting an unallocated slot; the bindings holding such
handles live in hal/endpoint.rs, which is not part of the sources here. -/
def EndpointBuffer.defaultHandle : EndpointBuffer := ⟨0, 0⟩

/-- EndpointBuffer::read at the contents level. The first argument is the
byte content of the SRAM viewed by the handle (its length is the handle
capacity), the second the destination slice. The source copies
count = min(buf.len(), self.0.len()) bytes one at a time into the front of
the destination and leaves the rest of the destination unchanged; the
value of this function is the final content of the destination. The Rust
function itself returns the unit value. -/
def EndpointBuffer.read : List Nat → List Nat → List Nat
  | m :: ms, _ :: bs => m :: EndpointBuffer.read ms bs
  | [], buf => buf
  | _ :: _, [] => []

/-- EndpointBuffer::write at the contents level. The first argument is the
current byte content of the viewed SRAM, the second the source slice. The
source copies count = min(buf.len(), self.0.len()) bytes from the front of
the argument into the buffer and leaves the rest of the buffer unchanged;
the value of this function is the final buffer content. The Rust function
itself returns the unit value. -/
def EndpointBuffer.write : List Nat → List Nat → List Nat
  | _ :: ms, b :: bs => b :: EndpointBuffer.write ms bs
  | mem, [] => mem
  | [], _ :: _ => []

/-- The value returned by EndpointBuffer::read: the Rust signature is
fn read(&self, buf: &mut [u8]) with unit return type, so every call
returns the unit value, independent of how many bytes were copied. -/
def EndpointBuffer.readRet (_mem _buf : List Nat) : Unit := ()

/-- The value returned by EndpointBuffer::write: unit, as in the source. -/
def EndpointBuffer.writeRet (_mem _buf : List Nat) : Unit := ()

/-- Align an address up to the next multiple of 64. The source computes
(addr + ALIGN - 1) & !(ALIGN - 1) with ALIGN = 64 on usize; since 64 is a
power of two and the addresses involved are far below the usize range,
masking off the low six bits of x is x - x % 64. -/
def alignUp64 (addr : Nat) : Nat := (addr + 64 - 1) - (addr + 64 - 1) % 64

/-- EndpointMemoryAllocator state: the bump pointer (endpoint_memory.rs). -/
structure EndpointMemoryAllocator where
  next_free_offset : Nat
deriving DecidableEq

/-- EndpointMemoryAllocator::new: buffers start after the reserved
endpoint register header. -/
def EndpointMemoryAllocator.new : EndpointMemoryAllocator := ⟨EP_REGISTERS_SIZE⟩

/-- EndpointMemoryAllocator::allocate_buffer, returning the new allocator
state together with the result, exactly as the source: align the next free
address up to 64 bytes, fail with EndpointMemoryOverflow leaving the state
unchanged when offset + size > EP_MEM_SIZE, otherwise bump the pointer to
offset + size and hand out the buffer over [offset, offset + size). -/
def EndpointMemoryAllocator.allocate_buffer (a : EndpointMemoryAllocator) (size : Nat) :
    EndpointMemoryAllocator × Except UsbError EndpointBuffer :=
  let next_free_addr := EP_MEM_ADDR + a.next_free_offset
  let addr := alignUp64 next_free_addr
  let offset := addr - EP_MEM_ADDR
  if EP_MEM_SIZE < offset + size then
    (a, .error .EndpointMemoryOverflow)
  else
    (⟨offset + size⟩, .ok ⟨offset, size⟩)

/-- The aligned offset the next allocation will use, as computed by
allocate_buffer: align_up(EP_MEM_ADDR + next_free_offset) - EP_MEM_ADDR. -/
def alignedOffset (next_free_offset : Nat) : Nat :=
  alignUp64 (EP_MEM_ADDR + next_free_offset) - EP_MEM_ADDR

/-- Run a sequence of allocate_buffer calls, collecting every result. -/
def runAlloc : EndpointMemoryAllocator → List Nat → EndpointMemoryAllocator × List (Except UsbError EndpointBuffer)
  | a, [] => (a, [])
  | a, size :: rest =>
    match a.allocate_buffer size with
    | (a1, r) =>
      match runAlloc a1 rest with
      | (a2, rs) => (a2, r :: rs)

/-- The successfully returned buffers of a result list, in order. -/
def okBuffers : List (Except UsbError EndpointBuffer) → List EndpointBuffer
  | [] => []
  | .ok b :: rest => b :: okBuffers rest
  | .error _ :: rest => okBuffers rest

/-- The buffers returned by a sequence of allocations from a fresh
allocator. -/
def allocRun (sizes : List Nat) : List EndpointBuffer :=
  okBuffers (runAlloc EndpointMemoryAllocator.new sizes).2

/-- The regions [b1.offset, b1.offset + b1.capacity) and
[b2.offset, b2.offset + b2.capacity) are disjoint intervals. -/
def regionsDisjoint (b1 b2 : EndpointBuffer) : Prop :=
  b1.offset + b1.capacity ≤ b2.offset ∨ b2.offset + b2.capacity ≤ b1.offset

/-- The region of b is disjoint from the reserved header region
[0, EP_REGISTERS_SIZE). -/
def headerDisjoint (b : EndpointBuffer) : Prop :=
  EP_REGISTERS_SIZE ≤ b.offset ∨ b.offset + b.capacity ≤ 0

/-! The poll state machine (UsbHSBus::poll, src/usbbus.rs). The hardware
registers poll touches are modelled as explicit state: the DEVCMDSTAT
flags read by poll, the INTSTAT interrupt-status register as a predicate
on bit positions, and the per-endpoint hardware ACTIVE bits of the
endpoint descriptor table. A write-one-to-clear write of a single INTSTAT
bit is modelled by clearing that bit. -/

/-- The portable poll result surface (usb_device PollResult). -/
inductive PollResult where
  | None
  | Reset
  | Suspend
  | Data (ep_out ep_in_complete ep_setup : Nat)
deriving DecidableEq

/-- The hardware state poll reads and writes: DEVCMDSTAT flags DRES_C,
DSUS_C, LPM_SUS and SETUP, the INTSTAT register (bit n of the register is
intstat n), and the ACTIVE bits of the per-endpoint IN and OUT descriptor
entries. -/
structure HwState where
  dres_c : Bool
  dsus_c : Bool
  lpm_sus : Bool
  setup : Bool
  intstat : Nat → Bool
  in_active : Nat → Bool
  out_active : Nat → Bool

/-- Effect of a write-one-to-clear register write of the single bit n. -/
def regClear (f : Nat → Bool) (n : Nat) : Nat → Bool :=
  fun m => if m = n then false else f m

/-- Accumulator state of the per-endpoint decode pass of poll: the live
INTSTAT register, the live IN ACTIVE bits, and the three event masks. -/
structure PollAcc where
  intstat : Nat → Bool
  in_active : Nat → Bool
  ep_out : Nat
  ep_in_complete : Nat
  ep_setup : Nat

/-- Loop body of poll for a non-control endpoint index i, OUT half:
if the OUT interrupt bit 2*i of the snapshot is set, record bit i in the
out mask (the source does not acknowledge OUT interrupt bits; the clear
is commented out). -/
def pollStepOut (snap : Nat → Bool) (i : Nat) (acc : PollAcc) : PollAcc :=
  if snap (2 * i) then { acc with ep_out := acc.ep_out ||| 2 ^ i } else acc

/-- Loop body of poll for a non-control endpoint index i, IN half: only
when the IN interrupt bit 2*i+1 of the snapshot is set and the hardware
IN ACTIVE bit is clear, record bit i in the in-complete mask and
write-clear INTSTAT bit 2*i+1; a set interrupt bit with the hardware
still active is skipped. -/
def pollStepIn (snap : Nat → Bool) (i : Nat) (acc : PollAcc) : PollAcc :=
  if snap (2 * i + 1) && !acc.in_active i then
    { acc with
        ep_in_complete := acc.ep_in_complete ||| 2 ^ i,
        intstat := regClear acc.intstat (2 * i + 1) }
  else acc

/-- One loop iteration of poll for endpoint index i (bit = 2 ^ i, since
the source shifts bit once per iteration and endpoint index equals the
iteration position). -/
def pollStep (snap : Nat → Bool) (i : Nat) (acc : PollAcc) : PollAcc :=
  pollStepIn snap i (pollStepOut snap i acc)

/-- The poll loop over the listed endpoint indices. -/
def pollLoop (snap : Nat → Bool) : List Nat → PollAcc → PollAcc
  | [], acc => acc
  | i :: rest, acc => pollLoop snap rest (pollStep snap i acc)

/-- Initial decode accumulator: live registers, empty masks. -/
def pollAccInit (s : HwState) : PollAcc :=
  ⟨s.intstat, s.in_active, 0, 0, 0⟩

/-- Control endpoint OUT handling of poll: an EP0 OUT interrupt (snapshot
bit 0) is classified as setup when the DEVCMDSTAT SETUP flag is set, else
as out. Neither bit is acknowledged here. -/
def pollEp0Out (snap : Nat → Bool) (stp : Bool) (acc : PollAcc) : PollAcc :=
  if snap 0 then
    if stp then { acc with ep_setup := acc.ep_setup ||| 1 }
    else { acc with ep_out := acc.ep_out ||| 1 }
  else acc

/-- Control endpoint IN handling of poll: an EP0 IN interrupt (snapshot
bit 1) is acknowledged immediately (write-clear of INTSTAT bit 1),
recorded in the in-complete mask, and the EP0 IN hardware ACTIVE bit is
manually deactivated. -/
def pollEp0In (snap : Nat → Bool) (acc : PollAcc) : PollAcc :=
  if snap 1 then
    { acc with
        ep_in_complete := acc.ep_in_complete ||| 1,
        intstat := regClear acc.intstat 1,
        in_active := fun j => if j = 0 then false else acc.in_active j }
  else acc

/-- The whole per-endpoint decode pass of poll: snapshot INTSTAT once,
handle the control endpoint, then every non-control endpoint from 1 up to
max_endpoint. -/
def pollDecode (max_endpoint : Nat) (s : HwState) : PollAcc :=
  pollLoop s.intstat (List.range' 1 max_endpoint)
    (pollEp0In s.intstat (pollEp0Out s.intstat s.setup (pollAccInit s)))

/-- Bit index of DEV_INT in INTSTAT (write-one-to-clear). -/
def DEV_INT_BIT : Nat := 31

/-- UsbHSBus::poll. Priority order as in the source: a set DRES_C flag is
cleared and yields Reset before anything else; else a set DSUS_C or
LPM_SUS flag yields Suspend with the flags left untouched; otherwise the
per-endpoint decode runs, the top-level DEV_INT flag is acknowledged, and
the result is Data with the three masks when any mask is non-zero, else
None. -/
def poll (max_endpoint : Nat) (s : HwState) : HwState × PollResult :=
  if s.dres_c then ({ s with dres_c := false }, .Reset)
  else if s.dsus_c || s.lpm_sus then (s, .Suspend)
  else
    let acc := pollDecode max_endpoint s
    let s1 : HwState :=
      { s with intstat := regClear acc.intstat DEV_INT_BIT, in_active := acc.in_active }
    if acc.ep_out ||| acc.ep_in_complete ||| acc.ep_setup ≠ 0 then
      (s1, .Data acc.ep_out acc.ep_in_complete acc.ep_setup)
    else (s1, .None)

/-! Endpoint bookkeeping and the bus controller (src/usbbus.rs). The
per-endpoint state type lives in hal/endpoint.rs, which is not among the
sources here; it is modelled from the spec, section 4.3. -/

/-- usb_device endpoint transfer types. -/
inductive EndpointType where
  | Control
  | Isochronous
  | Bulk
  | Interrupt
deriving DecidableEq

/-- usb_device transfer directions. -/
inductive UsbDirection where
  | Out
  | In
deriving DecidableEq

/-- usb_device endpoint address: a logical endpoint index plus a
direction. -/
structure EndpointAddress where
  index : Nat
  direction : UsbDirection
deriving DecidableEq

/-- EndpointAddress::is_out. -/
def EndpointAddress.is_out (a : EndpointAddress) : Bool :=
  match a.direction with
  | .Out => true
  | .In => false

/-- EndpointAddress::is_in. -/
def EndpointAddress.is_in (a : EndpointAddress) : Bool :=
  match a.direction with
  | .Out => false
  | .In => true

/-- Modelled from the spec: per-endpoint state (hal/endpoint.rs is not in
the sources): the immutable index, the optional negotiated type, and the
OUT, IN and (control endpoint only) SETUP buffer bindings. -/
structure Endpoint where
  index : Nat
  ep_type : Option EndpointType
  out_buf : Option EndpointBuffer
  in_buf : Option EndpointBuffer
  setup_buf : Option EndpointBuffer
deriving DecidableEq

/-- Modelled from the spec: Endpoint::new with everything unset. -/
def Endpoint.new (i : Nat) : Endpoint := ⟨i, none, none, none, none⟩

/-- Modelled from the spec: whether the OUT buffer binding is set. -/
def Endpoint.is_out_buf_set (ep : Endpoint) : Bool := ep.out_buf.isSome

/-- Modelled from the spec: whether the IN buffer binding is set. -/
def Endpoint.is_in_buf_set (ep : Endpoint) : Bool := ep.in_buf.isSome

/-- Modelled from the spec: set the negotiated endpoint type. -/
def Endpoint.set_ep_type (ep : Endpoint) (t : EndpointType) : Endpoint :=
  { ep with ep_type := some t }

/-- Modelled from the spec: bind the OUT buffer. -/
def Endpoint.set_out_buf (ep : Endpoint) (b : EndpointBuffer) : Endpoint :=
  { ep with out_buf := some b }

/-- Modelled from the spec: bind the IN buffer. -/
def Endpoint.set_in_buf (ep : Endpoint) (b : EndpointBuffer) : Endpoint :=
  { ep with in_buf := some b }

/-- Modelled from the spec: bind the SETUP buffer (control endpoint). -/
def Endpoint.set_setup_buf (ep : Endpoint) (b : EndpointBuffer) : Endpoint :=
  { ep with setup_buf := some b }

/-- The bus controller state that alloc_ep and the read/write dispatch
touch: the endpoint array, the SRAM allocator and max_endpoint. -/
structure UsbHSBus where
  endpoints : List Endpoint
  ep_allocator : EndpointMemoryAllocator
  max_endpoint : Nat
deriving DecidableEq

/-- UsbHSBus::new: NUM_ENDPOINTS eagerly constructed endpoints, a fresh
allocator, max_endpoint 0. -/
def UsbHSBus.new : UsbHSBus :=
  { endpoints := (List.range NUM_ENDPOINTS).map Endpoint.new,
    ep_allocator := EndpointMemoryAllocator.new,
    max_endpoint := 0 }

/-- Outcome of one candidate index in the alloc_ep scan: either the loop
returns (done) or it moves to the next candidate with the possibly
mutated bus (next). -/
inductive StepOutcome where
  | done (r : UsbHSBus × Except UsbError EndpointAddress)
  | next (bus : UsbHSBus)

/-- The direction half of one alloc_ep loop iteration, after the type
claim: for OUT on an endpoint whose OUT buffer is unset, allocate a
buffer of max_packet_size bytes (+1 for endpoint 0, as a u16 sum), bind
it, and for endpoint 0 additionally allocate and bind an 8 byte SETUP
buffer; for IN on an endpoint whose IN buffer is unset, allocate and bind
a max_packet_size buffer; anything else falls through to the next
candidate. Allocation failure propagates immediately, keeping every
mutation made so far (type claim, already bound OUT buffer). The Rust
locals size, ep2 and bus2 are inlined here; in particular
bus2.ep_allocator is the allocator a1 returned by the first allocation. -/
def allocDirStep (ep_dir : UsbDirection) (max_packet_size : Nat) (index : Nat)
    (ep1 : Endpoint) (bus1 : UsbHSBus) : StepOutcome :=
  match ep_dir with
  | .Out =>
    if ep1.is_out_buf_set then .next bus1
    else
      match bus1.ep_allocator.allocate_buffer
          (if index = 0 then (max_packet_size + 1) % 2 ^ 16 else max_packet_size) with
      | (a1, .error e) => .done ({ bus1 with ep_allocator := a1 }, .error e)
      | (a1, .ok buffer) =>
        if index = 0 then
          match a1.allocate_buffer 8 with
          | (a2, .error e) =>
            .done ({ bus1 with
                      ep_allocator := a2
                      endpoints := bus1.endpoints.set index (ep1.set_out_buf buffer) },
                   .error e)
          | (a2, .ok stp) =>
            .done ({ bus1 with
                      ep_allocator := a2
                      endpoints := (bus1.endpoints.set index (ep1.set_out_buf buffer)).set index
                        ((ep1.set_out_buf buffer).set_setup_buf stp) },
                   .ok ⟨index, ep_dir⟩)
        else
          .done ({ bus1 with
                    ep_allocator := a1
                    endpoints := bus1.endpoints.set index (ep1.set_out_buf buffer) },
                 .ok ⟨index, ep_dir⟩)
  | .In =>
    if ep1.is_in_buf_set then .next bus1
    else
      match bus1.ep_allocator.allocate_buffer max_packet_size with
      | (a1, .error e) => .done ({ bus1 with ep_allocator := a1 }, .error e)
      | (a1, .ok buffer) =>
        .done ({ bus1 with
                  ep_allocator := a1
                  endpoints := bus1.endpoints.set index (ep1.set_in_buf buffer) },
               .ok ⟨index, ep_dir⟩)

/-- One alloc_ep loop iteration for a candidate index: none models the
Rust panic of self.endpoints[index] when the index is out of bounds; a
candidate whose type is already set differently is skipped; an unset type
is claimed before the direction half runs. -/
def UsbHSBus.alloc_ep_step (ep_dir : UsbDirection) (ep_type : EndpointType)
    (max_packet_size : Nat) (index : Nat) (bus : UsbHSBus) : Option StepOutcome :=
  if index < bus.endpoints.length then
    match (bus.endpoints.getD index (Endpoint.new index)).ep_type with
    | some t =>
      if t ≠ ep_type then some (.next bus)
      else some (allocDirStep ep_dir max_packet_size index
        (bus.endpoints.getD index (Endpoint.new index))
        { bus with endpoints := bus.endpoints.set index (bus.endpoints.getD index (Endpoint.new index)) })
    | none =>
      some (allocDirStep ep_dir max_packet_size index
        ((bus.endpoints.getD index (Endpoint.new index)).set_ep_type ep_type)
        { bus with endpoints := bus.endpoints.set index ((bus.endpoints.getD index (Endpoint.new index)).set_ep_type ep_type) })
  else none

/-- The alloc_ep candidate scan. When the candidate list is exhausted the
error depends on whether a fixed address was requested: InvalidEndpoint
for a fixed address, EndpointOverflow otherwise. -/
def UsbHSBus.alloc_ep_go (ep_dir : UsbDirection) (fixed : Bool) (ep_type : EndpointType)
    (max_packet_size : Nat) : List Nat → UsbHSBus → Option (UsbHSBus × Except UsbError EndpointAddress)
  | [], bus => some (bus, .error (if fixed then .InvalidEndpoint else .EndpointOverflow))
  | index :: rest, bus =>
    match UsbHSBus.alloc_ep_step ep_dir ep_type max_packet_size index bus with
    | none => none
    | some (.done r) => some r
    | some (.next bus1) =>
      UsbHSBus.alloc_ep_go ep_dir fixed ep_type max_packet_size rest bus1

/-- UsbBus::alloc_ep for UsbHSBus. A fixed address gives the single
candidate [addr.index()]; no address gives the non-control candidates
1 .. NUM_ENDPOINTS - 1 in ascending order. The overall value is the
mutated bus paired with the Result; none models a Rust panic. -/
def UsbHSBus.alloc_ep (bus : UsbHSBus) (ep_dir : UsbDirection) (ep_addr : Option Nat)
    (ep_type : EndpointType) (max_packet_size : Nat) :
    Option (UsbHSBus × Except UsbError EndpointAddress) :=
  UsbHSBus.alloc_ep_go ep_dir ep_addr.isSome ep_type max_packet_size
    (match ep_addr with
      | some a => [a]
      | none => List.range' 1 (NUM_ENDPOINTS - 1)) bus

/-- Outcome of the read/write dispatch of UsbHSBus: an early typed error
return (no endpoint or hardware state touched), delegation under the
critical section to the endpoint controller at the given index
(Endpoint::read and Endpoint::write live in hal/endpoint.rs, outside the
sources here), or a Rust index-out-of-bounds panic. -/
inductive DispatchOutcome where
  | err (e : UsbError)
  | delegated (index : Nat)
  | oob
deriving DecidableEq

/-- UsbBus::read dispatch for UsbHSBus: a non-OUT address is rejected
with InvalidEndpoint before any state is touched; otherwise the call is
delegated to self.endpoints[ep_addr.index()], which panics when the index
is out of bounds. -/
def UsbHSBus.read (bus : UsbHSBus) (ep_addr : EndpointAddress) : DispatchOutcome :=
  if !ep_addr.is_out then .err .InvalidEndpoint
  else if ep_addr.index < bus.endpoints.length then .delegated ep_addr.index
  else .oob

/-- UsbBus::write dispatch for UsbHSBus: a non-IN address is rejected
with InvalidEndpoint before any state is touched; otherwise the call is
delegated to self.endpoints[ep_addr.index()], which panics when the index
is out of bounds. -/
def UsbHSBus.write (bus : UsbHSBus) (ep_addr : EndpointAddress) : DispatchOutcome :=
  if !ep_addr.is_in then .err .InvalidEndpoint
  else if ep_addr.index < bus.endpoints.length then .delegated ep_addr.index
  else .oob

/-! Concrete states used by the claim theorems. -/

/-- The C1 scenario: no reset or suspend flag, no SETUP flag, the
interrupt snapshot shows exactly OUT pending on endpoint 2 (bit 4) and
IN complete on endpoint 0 (bit 1), all hardware ACTIVE bits clear. -/
def c1State : HwState :=
  { dres_c := false, dsus_c := false, lpm_sus := false, setup := false,
    intstat := fun n => n == 1 || n == 4,
    in_active := fun _ => false,
    out_active := fun _ => false }

/-- A state with both the reset flag and a suspend flag set. -/
def c2StateBoth : HwState :=
  { dres_c := true, dsus_c := true, lpm_sus := false, setup := false,
    intstat := fun _ => false,
    in_active := fun _ => false,
    out_active := fun _ => false }

/-- A state with only the suspend-detected flag set. -/
def c2StateSus : HwState := { c2StateBoth with dres_c := false }

/-- A state whose interrupt snapshot shows exactly the endpoint 2 IN bit
(bit 5), with the hardware IN transfer inactive. -/
def c3State : HwState :=
  { dres_c := false, dsus_c := false, lpm_sus := false, setup := false,
    intstat := fun n => n == 5,
    in_active := fun _ => false,
    out_active := fun _ => false }

/-- Placeholder pair for reading alloc_ep results out of Option. -/
def allocDummy : UsbHSBus × Except UsbError EndpointAddress :=
  (UsbHSBus.new, .error .InvalidEndpoint)

/-- First C6 call: OUT allocation, no fixed address, on a fresh bus. -/
def c6Step1 : Option (UsbHSBus × Except UsbError EndpointAddress) :=
  UsbHSBus.new.alloc_ep .Out none .Control 64

/-- Bus after the first unaddressed C6 call. -/
def c6Bus1 : UsbHSBus := (c6Step1.getD allocDummy).1

/-- Second C6 call: IN allocation, no fixed address. -/
def c6Step2 : Option (UsbHSBus × Except UsbError EndpointAddress) :=
  c6Bus1.alloc_ep .In none .Control 64

/-- Bus after both unaddressed C6 calls. -/
def c6Bus2 : UsbHSBus := (c6Step2.getD allocDummy).1

/-- The address returned by the first unaddressed C6 call, when any. -/
def c6Addr1 : Option EndpointAddress :=
  match c6Step1 with
  | some (_, .ok a) => some a
  | _ => none

/-- First fixed-address C6 call: OUT allocation at endpoint 0. -/
def c6FixedStep1 : Option (UsbHSBus × Except UsbError EndpointAddress) :=
  UsbHSBus.new.alloc_ep .Out (some 0) .Control 64

/-- Bus after the fixed-address OUT allocation at endpoint 0. -/
def c6FixedBus1 : UsbHSBus := (c6FixedStep1.getD allocDummy).1

/-- Second fixed-address C6 call: IN allocation at endpoint 0. -/
def c6FixedStep2 : Option (UsbHSBus × Except UsbError EndpointAddress) :=
  c6FixedBus1.alloc_ep .In (some 0) .Control 64

/-- Bus after OUT then IN fixed-address allocation at endpoint 0. -/
def c6FixedBus2 : UsbHSBus := (c6FixedStep2.getD allocDummy).1

/-! Helper lemmas. -/

/-- allocate_buffer written as a single conditional on the aligned
offset. -/
theorem allocate_buffer_eq (a : EndpointMemoryAllocator) (size : Nat) :
    a.allocate_buffer size =
      if EP_MEM_SIZE < alignedOffset a.next_free_offset + size then
        (a, .error .EndpointMemoryOverflow)
      else
        (⟨alignedOffset a.next_free_offset + size⟩,
          .ok ⟨alignedOffset a.next_free_offset, size⟩) := rfl

/-- The aligned offset is the smallest multiple of 64 at or above the
bump pointer. -/
theorem alignedOffset_bounds (n : Nat) :
    alignedOffset n % 64 = 0 ∧ n ≤ alignedOffset n ∧ alignedOffset n < n + 64 := by
  unfold alignedOffset alignUp64 EP_MEM_ADDR USB1_SRAM_ADDR
  omega

/-- EndpointBuffer.read copies min(buf.length, mem.length) bytes from the
buffer content into the front of the destination. -/
theorem EndpointBuffer.read_eq (mem buf : List Nat) :
    EndpointBuffer.read mem buf =
      mem.take (min buf.length mem.length) ++ buf.drop (min buf.length mem.length) := by
  induction mem generalizing buf with
  | nil => cases buf <;> simp [EndpointBuffer.read]
  | cons m ms ih =>
    cases buf with
    | nil => simp [EndpointBuffer.read]
    | cons b bs => simp [EndpointBuffer.read, ih, Nat.succ_min_succ]

/-- EndpointBuffer.write copies min(buf.length, mem.length) bytes from
the argument into the front of the buffer content. -/
theorem EndpointBuffer.write_eq (mem buf : List Nat) :
    EndpointBuffer.write mem buf =
      buf.take (min buf.length mem.length) ++ mem.drop (min buf.length mem.length) := by
  induction mem generalizing buf with
  | nil => cases buf <;> simp [EndpointBuffer.write]
  | cons m ms ih =>
    cases buf with
    | nil => simp [EndpointBuffer.write]
    | cons b bs => simp [EndpointBuffer.write, ih, Nat.succ_min_succ]

/-- Invariant of a run of allocations: the bump pointer never decreases,
every returned buffer is 64-byte aligned and lies between the starting
bump pointer and the final one, and the returned regions are pairwise
disjoint. -/
theorem runAlloc_master (sizes : List Nat) (a : EndpointMemoryAllocator) :
    a.next_free_offset ≤ (runAlloc a sizes).1.next_free_offset ∧
    (∀ b ∈ okBuffers (runAlloc a sizes).2,
      b.offset % 64 = 0 ∧ a.next_free_offset ≤ b.offset ∧
      b.offset + b.capacity ≤ (runAlloc a sizes).1.next_free_offset) ∧
    List.Pairwise regionsDisjoint (okBuffers (runAlloc a sizes).2) := by
  induction sizes generalizing a with
  | nil => simp [runAlloc, okBuffers]
  | cons size rest ih =>
    have hb := alignedOffset_bounds a.next_free_offset
    by_cases h : EP_MEM_SIZE < alignedOffset a.next_free_offset + size
    · have he : a.allocate_buffer size = (a, .error .EndpointMemoryOverflow) := by
        rw [allocate_buffer_eq, if_pos h]
      obtain ⟨ih1, ih2, ih3⟩ := ih a
      simpa [runAlloc, he, okBuffers] using ⟨ih1, ih2, ih3⟩
    · have he : a.allocate_buffer size =
          (⟨alignedOffset a.next_free_offset + size⟩,
            .ok ⟨alignedOffset a.next_free_offset, size⟩) := by
        rw [allocate_buffer_eq, if_neg h]
      obtain ⟨ih1, ih2, ih3⟩ := ih ⟨alignedOffset a.next_free_offset + size⟩
      simp only [runAlloc, he, okBuffers]
      refine ⟨by simp at ih1 ⊢; omega, ?_, ?_⟩
      · intro b hb'
        rcases List.mem_cons.mp hb' with hbe | hbm
        · subst hbe
          refine ⟨hb.1, hb.2.1, ?_⟩
          simp at ih1 ⊢
          omega
        · obtain ⟨m1, m2, m3⟩ := ih2 b hbm
          refine ⟨m1, by simp at m2 ⊢; omega, m3⟩
      · refine List.pairwise_cons.mpr ⟨?_, ih3⟩
        intro c hc
        obtain ⟨m1, m2, m3⟩ := ih2 c hc
        left
        simp at m2 ⊢
        omega

/-- C4: allocate_buffer fails with EndpointMemoryOverflow exactly when
the 64-byte aligned-up offset plus the requested size exceeds
EP_MEM_SIZE, and in that case next_free_offset is unchanged (no partial
commit); otherwise it advances next_free_offset to
aligned_offset + size and returns the handle over
[aligned_offset, aligned_offset + size). The final two conjuncts certify
that alignedOffset is indeed the 64-byte-aligned-up bump pointer. -/
theorem C4_allocate_buffer (a : EndpointMemoryAllocator) (size : Nat) :
    ((a.allocate_buffer size).2 = .error .EndpointMemoryOverflow ↔
      EP_MEM_SIZE < alignedOffset a.next_free_offset + size)
    ∧ (EP_MEM_SIZE < alignedOffset a.next_free_offset + size →
        (a.allocate_buffer size).1 = a)
    ∧ (alignedOffset a.next_free_offset + size ≤ EP_MEM_SIZE →
        (a.allocate_buffer size).1.next_free_offset =
            alignedOffset a.next_free_offset + size ∧
          (a.allocate_buffer size).2 = .ok ⟨alignedOffset a.next_free_offset, size⟩)
    ∧ alignedOffset a.next_free_offset % 64 = 0
    ∧ a.next_free_offset ≤ alignedOffset a.next_free_offset
    ∧ alignedOffset a.next_free_offset < a.next_free_offset + 64 := by
  have hb := alignedOffset_bounds a.next_free_offset
  rw [allocate_buffer_eq]
  by_cases h : EP_MEM_SIZE < alignedOffset a.next_free_offset + size
  · simp [h, hb.1, hb.2.1, hb.2.2]
  · simp [h, hb.1, hb.2.1, hb.2.2]

/-- C4 witness: a concrete successful allocation from a fresh
allocator. -/
theorem C4_witness :
    (EndpointMemoryAllocator.new.allocate_buffer 8).1.next_free_offset =
        alignedOffset EndpointMemoryAllocator.new.next_free_offset + 8 ∧
      (EndpointMemoryAllocator.new.allocate_buffer 8).2 =
        .ok ⟨alignedOffset EndpointMemoryAllocator.new.next_free_offset, 8⟩ :=
  (C4_allocate_buffer EndpointMemoryAllocator.new 8).2.2.1 (by decide)

/-- C5: over any sequence of allocations from a fresh allocator, every
successfully returned buffer has a 64-byte aligned offset, the returned
regions are pairwise disjoint and disjoint from the reserved header
region [0, EP_REGISTERS_SIZE), and every single allocate_buffer call
(from any state, failing or not) leaves next_free_offset no smaller. -/
theorem C5_alloc_invariants (sizes : List Nat) :
    (∀ b ∈ allocRun sizes, b.offset % 64 = 0)
    ∧ List.Pairwise regionsDisjoint (allocRun sizes)
    ∧ (∀ b ∈ allocRun sizes, headerDisjoint b)
    ∧ (∀ (a : EndpointMemoryAllocator) (size : Nat),
        a.next_free_offset ≤ (a.allocate_buffer size).1.next_free_offset) := by
  obtain ⟨hm, hmem, hpw⟩ := runAlloc_master sizes EndpointMemoryAllocator.new
  refine ⟨fun b hbm => (hmem b hbm).1, hpw, fun b hbm => Or.inl ?_, fun a size => ?_⟩
  · exact (hmem b hbm).2.1
  · have hb := alignedOffset_bounds a.next_free_offset
    rw [allocate_buffer_eq]
    by_cases h : EP_MEM_SIZE < alignedOffset a.next_free_offset + size
    · simp [h]
    · simp [h]
      omega

/-- C5 witness: concrete members of the run with sizes [8, 16, 8]. -/
theorem C5_witness :
    (⟨128, 8⟩ : EndpointBuffer).offset % 64 = 0 ∧ headerDisjoint ⟨192, 16⟩ :=
  ⟨(C5_alloc_invariants [8, 16, 8]).1 ⟨128, 8⟩ (by decide),
    (C5_alloc_invariants [8, 16, 8]).2.2.1 ⟨192, 16⟩ (by decide)⟩

/-- C10: from any allocator state with remaining capacity, a zero-size
allocation succeeds, the returned handle has capacity 0 and is_empty
true — agreeing, on the capacity and is_empty observables, with the
default handle denoting an unallocated slot — and next_free_offset
advances (possibly) to the next 64-byte boundary. -/
theorem C10_allocate_zero (a : EndpointMemoryAllocator)
    (h : a.next_free_offset < EP_MEM_SIZE) :
    (a.allocate_buffer 0).2 = .ok ⟨alignedOffset a.next_free_offset, 0⟩
    ∧ (EndpointBuffer.mk (alignedOffset a.next_free_offset) 0).capacity = 0
    ∧ (EndpointBuffer.mk (alignedOffset a.next_free_offset) 0).is_empty = true
    ∧ (EndpointBuffer.mk (alignedOffset a.next_free_offset) 0).is_empty =
        EndpointBuffer.defaultHandle.is_empty
    ∧ (EndpointBuffer.mk (alignedOffset a.next_free_offset) 0).capacity =
        EndpointBuffer.defaultHandle.capacity
    ∧ (a.allocate_buffer 0).1.next_free_offset % 64 = 0
    ∧ a.next_free_offset ≤ (a.allocate_buffer 0).1.next_free_offset
    ∧ (a.allocate_buffer 0).1.next_free_offset < a.next_free_offset + 64 := by
  have hb := alignedOffset_bounds a.next_free_offset
  have hle : ¬ EP_MEM_SIZE < alignedOffset a.next_free_offset + 0 := by
    revert h hb
    unfold EP_MEM_SIZE
    omega
  obtain ⟨hb1, hb2, hb3⟩ := hb
  rw [allocate_buffer_eq, if_neg hle]
  refine ⟨rfl, rfl, rfl,
    by simp [EndpointBuffer.is_empty, EndpointBuffer.defaultHandle], rfl, ?_, ?_, ?_⟩
  · show (alignedOffset a.next_free_offset + 0) % 64 = 0
    omega
  · show a.next_free_offset ≤ alignedOffset a.next_free_offset + 0
    omega
  · show alignedOffset a.next_free_offset + 0 < a.next_free_offset + 64
    omega

/-- C10 witness: zero-size allocation from the fresh allocator. -/
theorem C10_witness :
    (EndpointMemoryAllocator.new.allocate_buffer 0).2 =
        .ok ⟨alignedOffset EndpointMemoryAllocator.new.next_free_offset, 0⟩ ∧
      (EndpointMemoryAllocator.new.allocate_buffer 0).1.next_free_offset % 64 = 0 :=
  ⟨(C10_allocate_zero EndpointMemoryAllocator.new (by decide)).1,
    (C10_allocate_zero EndpointMemoryAllocator.new (by decide)).2.2.2.2.2.1⟩

/-- C7 (amended): read copies exactly min(len(dest), capacity) bytes of
the buffer into the front of the destination and write copies exactly
min(len(src), capacity) bytes of the source into the front of the
buffer, excess input silently dropped; both functions return the unit
value, not the copied count. -/
theorem C7_copy_semantics (mem buf : List Nat) :
    EndpointBuffer.read mem buf =
      mem.take (min buf.length mem.length) ++ buf.drop (min buf.length mem.length)
    ∧ (EndpointBuffer.read mem buf).length = buf.length
    ∧ EndpointBuffer.write mem buf =
      buf.take (min buf.length mem.length) ++ mem.drop (min buf.length mem.length)
    ∧ (EndpointBuffer.write mem buf).length = mem.length
    ∧ EndpointBuffer.readRet mem buf = ()
    ∧ EndpointBuffer.writeRet mem buf = () := by
  refine ⟨EndpointBuffer.read_eq mem buf, ?_, EndpointBuffer.write_eq mem buf, ?_, rfl, rfl⟩
  · rw [EndpointBuffer.read_eq]
    simp
  · rw [EndpointBuffer.write_eq]
    simp

/-- C7 counterexample: EndpointBuffer::read does not return the copied
count — its return value is the same unit value across two calls whose
copy counts differ (2 bytes versus 1 byte), so no count is returned. -/
theorem C7_counterexample :
    EndpointBuffer.readRet [5, 6, 7] [0, 0] = EndpointBuffer.readRet [5, 6, 7] [0]
      ∧ min 2 3 ≠ min 1 3 :=
  ⟨rfl, by decide⟩

/-- C8: a write of b (len(b) ≤ capacity) followed by a read into a
destination of length len(b) yields exactly b; writing a longer sequence
stores only its first capacity bytes; reading into a longer destination
copies exactly capacity bytes and leaves the rest of the destination
unchanged. -/
theorem C8_roundtrip (mem b dest : List Nat) :
    (b.length ≤ mem.length → dest.length = b.length →
      EndpointBuffer.read (EndpointBuffer.write mem b) dest = b)
    ∧ (mem.length < b.length → EndpointBuffer.write mem b = b.take mem.length)
    ∧ (mem.length < dest.length →
        EndpointBuffer.read mem dest = mem ++ dest.drop mem.length) := by
  refine ⟨?_, ?_, ?_⟩
  · intro h1 h2
    have hmin : min b.length mem.length = b.length := Nat.min_eq_left h1
    rw [EndpointBuffer.write_eq, hmin, List.take_length, EndpointBuffer.read_eq]
    have hlen : (b ++ mem.drop b.length).length = mem.length := by
      simp
      omega
    have hmin2 : min dest.length (b ++ mem.drop b.length).length = b.length := by
      rw [hlen, h2]
      exact Nat.min_eq_left h1
    rw [hmin2, List.take_left' rfl, ← h2, List.drop_length]
    simp
  · intro h1
    rw [EndpointBuffer.write_eq]
    have hmin : min b.length mem.length = mem.length := Nat.min_eq_right (Nat.le_of_lt h1)
    rw [hmin, List.drop_length]
    simp
  · intro h1
    rw [EndpointBuffer.read_eq]
    have hmin : min dest.length mem.length = mem.length := Nat.min_eq_right (Nat.le_of_lt h1)
    rw [hmin, List.take_length]

/-! Poll decode lemmas. -/

/-- pollStepOut never touches the live IN ACTIVE bits. -/
theorem pollStepOut_in_active (snap : Nat → Bool) (i : Nat) (acc : PollAcc) :
    (pollStepOut snap i acc).in_active = acc.in_active := by
  unfold pollStepOut
  split <;> rfl

/-- pollStepOut never touches the live INTSTAT register. -/
theorem pollStepOut_intstat (snap : Nat → Bool) (i : Nat) (acc : PollAcc) :
    (pollStepOut snap i acc).intstat = acc.intstat := by
  unfold pollStepOut
  split <;> rfl

/-- pollStepOut never touches the in-complete mask. -/
theorem pollStepOut_ep_in (snap : Nat → Bool) (i : Nat) (acc : PollAcc) :
    (pollStepOut snap i acc).ep_in_complete = acc.ep_in_complete := by
  unfold pollStepOut
  split <;> rfl

/-- pollStepOut never touches the setup mask. -/
theorem pollStepOut_ep_setup (snap : Nat → Bool) (i : Nat) (acc : PollAcc) :
    (pollStepOut snap i acc).ep_setup = acc.ep_setup := by
  unfold pollStepOut
  split <;> rfl

/-- Bit k of the out mask after pollStepOut. -/
theorem pollStepOut_ep_out (snap : Nat → Bool) (i : Nat) (acc : PollAcc) (k : Nat) :
    (pollStepOut snap i acc).ep_out.testBit k =
      (acc.ep_out.testBit k || (decide (i = k) && snap (2 * i))) := by
  unfold pollStepOut
  cases hs : snap (2 * i) <;> simp [hs, Nat.testBit_lor, Nat.testBit_two_pow]

/-- pollStepIn never touches the live IN ACTIVE bits. -/
theorem pollStepIn_in_active (snap : Nat → Bool) (i : Nat) (acc : PollAcc) :
    (pollStepIn snap i acc).in_active = acc.in_active := by
  unfold pollStepIn
  split <;> rfl

/-- pollStepIn never touches the out mask. -/
theorem pollStepIn_ep_out (snap : Nat → Bool) (i : Nat) (acc : PollAcc) :
    (pollStepIn snap i acc).ep_out = acc.ep_out := by
  unfold pollStepIn
  split <;> rfl

/-- pollStepIn never touches the setup mask. -/
theorem pollStepIn_ep_setup (snap : Nat → Bool) (i : Nat) (acc : PollAcc) :
    (pollStepIn snap i acc).ep_setup = acc.ep_setup := by
  unfold pollStepIn
  split <;> rfl

/-- Bit k of the in-complete mask after pollStepIn. -/
theorem pollStepIn_ep_in (snap : Nat → Bool) (i : Nat) (acc : PollAcc) (k : Nat) :
    (pollStepIn snap i acc).ep_in_complete.testBit k =
      (acc.ep_in_complete.testBit k ||
        (decide (i = k) && (snap (2 * i + 1) && !acc.in_active i))) := by
  unfold pollStepIn
  cases hc : snap (2 * i + 1) <;> cases ha : acc.in_active i <;>
    simp [hc, ha, Nat.testBit_lor, Nat.testBit_two_pow]

/-- Bit m of the live INTSTAT register after pollStepIn: the specific bit
2*i+1 is cleared exactly when the step classified endpoint i as
in-complete; everything else is untouched. -/
theorem pollStepIn_intstat (snap : Nat → Bool) (i : Nat) (acc : PollAcc) (m : Nat) :
    (pollStepIn snap i acc).intstat m =
      if m = 2 * i + 1 ∧ snap (2 * i + 1) = true ∧ acc.in_active i = false then false
      else acc.intstat m := by
  unfold pollStepIn
  cases hc : snap (2 * i + 1) <;> cases ha : acc.in_active i <;>
    by_cases hm : m = 2 * i + 1 <;> simp [hc, ha, hm, regClear]

/-- The poll loop never touches the live IN ACTIVE bits. -/
theorem pollLoop_in_active (snap : Nat → Bool) (l : List Nat) (acc : PollAcc) :
    (pollLoop snap l acc).in_active = acc.in_active := by
  induction l generalizing acc with
  | nil => rfl
  | cons i rest ih =>
    rw [pollLoop, ih, pollStep, pollStepIn_in_active, pollStepOut_in_active]

/-- The poll loop never touches the setup mask. -/
theorem pollLoop_ep_setup (snap : Nat → Bool) (l : List Nat) (acc : PollAcc) :
    (pollLoop snap l acc).ep_setup = acc.ep_setup := by
  induction l generalizing acc with
  | nil => rfl
  | cons i rest ih =>
    rw [pollLoop, ih, pollStep, pollStepIn_ep_setup, pollStepOut_ep_setup]

/-- Bit k of the out mask after the poll loop: it is set exactly when it
was set before, or k is among the visited indices and its OUT interrupt
bit is set in the snapshot. -/
theorem pollLoop_ep_out (snap : Nat → Bool) (l : List Nat) (acc : PollAcc) (k : Nat) :
    (pollLoop snap l acc).ep_out.testBit k =
      (acc.ep_out.testBit k || (decide (k ∈ l) && snap (2 * k))) := by
  induction l generalizing acc with
  | nil => simp [pollLoop]
  | cons i rest ih =>
    rw [pollLoop, ih, pollStep, pollStepIn_ep_out, pollStepOut_ep_out]
    by_cases hik : i = k
    · subst hik
      simp [List.mem_cons]
      cases acc.ep_out.testBit i <;> cases hs : snap (2 * i) <;>
        cases hd : decide (i ∈ rest) <;> simp [hs, hd]
    · have hki : (decide (k = i)) = false := decide_eq_false (fun h => hik h.symm)
      simp [List.mem_cons, hik, hki]

/-- Bit k of the in-complete mask after the poll loop: it is set exactly
when it was set before, or k is among the visited indices, its IN
interrupt bit is set in the snapshot, and its hardware IN ACTIVE bit is
clear. -/
theorem pollLoop_ep_in (snap : Nat → Bool) (l : List Nat) (acc : PollAcc) (k : Nat) :
    (pollLoop snap l acc).ep_in_complete.testBit k =
      (acc.ep_in_complete.testBit k ||
        (decide (k ∈ l) && (snap (2 * k + 1) && !acc.in_active k))) := by
  induction l generalizing acc with
  | nil => simp [pollLoop]
  | cons i rest ih =>
    rw [pollLoop, ih, pollStep, pollStepIn_in_active, pollStepOut_in_active,
      pollStepIn_ep_in, pollStepOut_ep_in, pollStepOut_in_active]
    by_cases hik : i = k
    · subst hik
      simp [List.mem_cons]
      cases acc.ep_in_complete.testBit i <;> cases hs : snap (2 * i + 1) <;>
        cases ha : acc.in_active i <;> cases hd : decide (i ∈ rest) <;>
        simp [hs, ha, hd]
    · have hki : (decide (k = i)) = false := decide_eq_false (fun h => hik h.symm)
      simp [List.mem_cons, hik, hki]

/-- Bit m of the live INTSTAT register after the poll loop: it is cleared
exactly when some visited index classified as in-complete owns it as its
IN interrupt bit; all other bits are untouched. -/
theorem pollLoop_intstat (snap : Nat → Bool) (l : List Nat) (acc : PollAcc) (m : Nat) :
    (pollLoop snap l acc).intstat m =
      if ∃ j ∈ l, m = 2 * j + 1 ∧ snap (2 * j + 1) = true ∧ acc.in_active j = false
      then false else acc.intstat m := by
  induction l generalizing acc with
  | nil => simp [pollLoop]
  | cons i rest ih =>
    rw [pollLoop, ih, pollStep, pollStepIn_in_active, pollStepOut_in_active,
      pollStepIn_intstat, pollStepOut_intstat, pollStepOut_in_active]
    by_cases h2 : m = 2 * i + 1 ∧ snap (2 * i + 1) = true ∧ acc.in_active i = false
    · have hex : ∃ j ∈ i :: rest,
          m = 2 * j + 1 ∧ snap (2 * j + 1) = true ∧ acc.in_active j = false :=
        ⟨i, List.mem_cons_self i rest, h2⟩
      simp only [if_pos hex, if_pos h2]
      split <;> rfl
    · by_cases h1 : ∃ j ∈ rest,
          m = 2 * j + 1 ∧ snap (2 * j + 1) = true ∧ acc.in_active j = false
      · have hex : ∃ j ∈ i :: rest,
            m = 2 * j + 1 ∧ snap (2 * j + 1) = true ∧ acc.in_active j = false := by
          obtain ⟨j, hj, hp⟩ := h1
          exact ⟨j, List.mem_cons_of_mem i hj, hp⟩
        rw [if_pos h1, if_pos hex]
      · have hex : ¬ ∃ j ∈ i :: rest,
            m = 2 * j + 1 ∧ snap (2 * j + 1) = true ∧ acc.in_active j = false := by
          rintro ⟨j, hj, hp⟩
          rcases List.mem_cons.mp hj with hji | hjm
          · exact h2 (hji ▸ hp)
          · exact h1 ⟨j, hjm, hp⟩
        rw [if_neg h1, if_neg hex, if_neg h2]

/-- Membership in the non-control scan range of poll. -/
theorem mem_scan_range (i max_endpoint : Nat) :
    i ∈ List.range' 1 max_endpoint ↔ 1 ≤ i ∧ i ≤ max_endpoint := by
  rw [List.mem_range']
  constructor
  · rintro ⟨k, hk, rfl⟩
    omega
  · rintro ⟨h1, h2⟩
    exact ⟨i - 1, by omega, by omega⟩

/-- Before the non-control loop runs, bit k (k ≥ 1) of each mask is
clear, the IN ACTIVE bit of endpoint k is untouched and every INTSTAT
bit other than bit 1 is untouched. -/
theorem preAcc_facts (s : HwState) (k : Nat) (hk : 1 ≤ k) :
    (pollEp0In s.intstat (pollEp0Out s.intstat s.setup (pollAccInit s))).ep_out.testBit k = false
    ∧ (pollEp0In s.intstat (pollEp0Out s.intstat s.setup (pollAccInit s))).ep_in_complete.testBit k = false
    ∧ (pollEp0In s.intstat (pollEp0Out s.intstat s.setup (pollAccInit s))).ep_setup.testBit k = false
    ∧ (pollEp0In s.intstat (pollEp0Out s.intstat s.setup (pollAccInit s))).in_active k = s.in_active k
    ∧ (∀ m, m ≠ 1 →
        (pollEp0In s.intstat (pollEp0Out s.intstat s.setup (pollAccInit s))).intstat m = s.intstat m) := by
  have h1 : Nat.testBit 1 k = false := by
    rw [show (1 : Nat) = 2 ^ 0 from rfl, Nat.testBit_two_pow]
    simp
    omega
  have h0 : Nat.testBit 0 k = false := Nat.zero_testBit k
  unfold pollEp0In pollEp0Out pollAccInit
  cases hs0 : s.intstat 0 <;> cases hst : s.setup <;> cases hs1 : s.intstat 1 <;>
    simp [hs0, hst, hs1, h0, h1, regClear] <;>
    refine ⟨by omega, fun m hm => by simp [hm]⟩

/-- The state poll returns in the non-reset, non-suspend case. -/
theorem poll_fst (max_endpoint : Nat) (s : HwState) (hr : s.dres_c = false)
    (h1 : s.dsus_c = false) (h2 : s.lpm_sus = false) :
    (poll max_endpoint s).1 =
      { s with
          intstat := regClear (pollDecode max_endpoint s).intstat DEV_INT_BIT
          in_active := (pollDecode max_endpoint s).in_active } := by
  unfold poll
  simp only [hr, h1, h2, Bool.or_self, if_neg Bool.false_ne_true]
  split <;> rfl

/-- C1 counterexample: in the claimed scenario (snapshot with OUT
pending on endpoint 2 and IN complete on endpoint 0, no reset or suspend
flag) the first poll does return Data with out mask 4, in-complete mask
1 and setup mask 0, but an immediately following poll with no new
hardware events does not return None: the OUT interrupt bit is never
acknowledged by poll, so the OUT event is reported again. -/
theorem C1_counterexample :
    (poll 2 c1State).2 = PollResult.Data 4 1 0
    ∧ (poll 2 (poll 2 c1State).1).2 ≠ PollResult.None := by
  constructor
  · decide
  · decide

/-- C1 (amended): in the claimed scenario the first poll returns Data
with out mask bit 2, in-complete mask bit 0, setup mask zero; the
immediately following poll (no new hardware events) returns Data with
out mask bit 2 still set and the other masks zero, because poll
acknowledges IN interrupt bits but leaves OUT interrupt bits pending
until the endpoint is read. -/
theorem C1_poll_masks :
    (poll 2 c1State).2 = PollResult.Data 4 1 0
    ∧ (poll 2 (poll 2 c1State).1).2 = PollResult.Data 4 0 0
    ∧ Nat.testBit 4 2 = true ∧ Nat.testBit 1 0 = true := by
  refine ⟨by decide, by decide, by decide, by decide⟩

/-- C2: when the bus-reset flag is set (even together with a suspend
flag), poll returns Reset — never Suspend — clears exactly the reset
flag and touches nothing else (short-circuiting all per-endpoint
decoding); when only a suspend flag is set, poll returns Suspend and
leaves the whole state, including that flag, untouched. -/
theorem C2_poll_priority (max_endpoint : Nat) (s : HwState) :
    (s.dres_c = true → (s.dsus_c = true ∨ s.lpm_sus = true) →
      poll max_endpoint s = ({ s with dres_c := false }, PollResult.Reset)
      ∧ (poll max_endpoint s).2 ≠ PollResult.Suspend)
    ∧ (s.dres_c = false → (s.dsus_c = true ∨ s.lpm_sus = true) →
      poll max_endpoint s = (s, PollResult.Suspend)) := by
  constructor
  · intro h1 _h2
    have he : poll max_endpoint s = ({ s with dres_c := false }, PollResult.Reset) := by
      unfold poll
      simp [h1]
    refine ⟨he, ?_⟩
    rw [he]
    simp
  · intro h1 h2
    unfold poll
    rcases h2 with h | h <;> simp [h1, h]

/-- C2 witness: concrete reset-and-suspend and suspend-only states. -/
theorem C2_witness :
    poll 0 c2StateBoth = ({ c2StateBoth with dres_c := false }, PollResult.Reset)
    ∧ poll 0 c2StateSus = (c2StateSus, PollResult.Suspend) :=
  ⟨((C2_poll_priority 0 c2StateBoth).1 rfl (Or.inl rfl)).1,
    (C2_poll_priority 0 c2StateSus).2 rfl (Or.inl rfl)⟩

/-- C3: during poll with no reset or suspend flag, a non-control
endpoint i in 1..=max_endpoint is classified in-complete exactly when
its IN interrupt bit (snapshot bit 2*i+1) is set and the hardware
reports the IN transfer inactive; a set IN bit with the hardware still
active is ignored — it appears in no mask and its interrupt bit stays
set; when classified, poll write-clears that endpoint's specific IN
interrupt bit. -/
theorem C3_in_classification (max_endpoint : Nat) (s : HwState) (i : Nat)
    (hge : 1 ≤ i) (hle : i ≤ max_endpoint) (hmax : max_endpoint < NUM_ENDPOINTS)
    (hr : s.dres_c = false) (hs1 : s.dsus_c = false) (hs2 : s.lpm_sus = false) :
    ((pollDecode max_endpoint s).ep_in_complete.testBit i = true ↔
      (s.intstat (2 * i + 1) = true ∧ s.in_active i = false))
    ∧ (s.intstat (2 * i + 1) = true → s.in_active i = true →
        (pollDecode max_endpoint s).ep_in_complete.testBit i = false
        ∧ (pollDecode max_endpoint s).ep_out.testBit i = s.intstat (2 * i)
        ∧ (pollDecode max_endpoint s).ep_setup.testBit i = false
        ∧ (poll max_endpoint s).1.intstat (2 * i + 1) = true)
    ∧ (s.intstat (2 * i + 1) = true → s.in_active i = false →
        (poll max_endpoint s).1.intstat (2 * i + 1) = false) := by
  obtain ⟨hO, hI, hS, hA, hT⟩ := preAcc_facts s i hge
  have hmem : i ∈ List.range' 1 max_endpoint := (mem_scan_range i max_endpoint).mpr ⟨hge, hle⟩
  have hd : decide (i ∈ List.range' 1 max_endpoint) = true := decide_eq_true hmem
  have hne31 : ¬ (2 * i + 1 = DEV_INT_BIT) := by
    unfold DEV_INT_BIT
    unfold NUM_ENDPOINTS at hmax
    omega
  have hne1 : 2 * i + 1 ≠ 1 := by omega
  have hfst := poll_fst max_endpoint s hr hs1 hs2
  have hIn := pollLoop_ep_in s.intstat (List.range' 1 max_endpoint)
    (pollEp0In s.intstat (pollEp0Out s.intstat s.setup (pollAccInit s))) i
  have hOut := pollLoop_ep_out s.intstat (List.range' 1 max_endpoint)
    (pollEp0In s.intstat (pollEp0Out s.intstat s.setup (pollAccInit s))) i
  have hSt := pollLoop_ep_setup s.intstat (List.range' 1 max_endpoint)
    (pollEp0In s.intstat (pollEp0Out s.intstat s.setup (pollAccInit s)))
  have hInt := pollLoop_intstat s.intstat (List.range' 1 max_endpoint)
    (pollEp0In s.intstat (pollEp0Out s.intstat s.setup (pollAccInit s))) (2 * i + 1)
  rw [hI, hA, hd] at hIn
  rw [hO, hd] at hOut
  refine ⟨?_, ?_, ?_⟩
  · show (pollDecode max_endpoint s).ep_in_complete.testBit i = true ↔ _
    unfold pollDecode
    rw [hIn]
    cases hb1 : s.intstat (2 * i + 1) <;> cases hb2 : s.in_active i <;> simp
  · intro h1 h2
    refine ⟨?_, ?_, ?_, ?_⟩
    · unfold pollDecode
      rw [hIn, h1, h2]
      rfl
    · unfold pollDecode
      rw [hOut]
      simp
    · unfold pollDecode
      rw [hSt]
      exact hS
    · rw [hfst]
      show regClear (pollDecode max_endpoint s).intstat DEV_INT_BIT (2 * i + 1) = true
      unfold regClear
      rw [if_neg hne31]
      unfold pollDecode
      rw [hInt, if_neg ?_, hT (2 * i + 1) hne1]
      · exact h1
      · rintro ⟨j, hj, hjeq, _hjsnap, hjina⟩
        have hji : j = i := by omega
        subst hji
        rw [hA] at hjina
        rw [h2] at hjina
        exact Bool.noConfusion hjina
  · intro h1 h2
    rw [hfst]
    show regClear (pollDecode max_endpoint s).intstat DEV_INT_BIT (2 * i + 1) = false
    unfold regClear
    rw [if_neg hne31]
    unfold pollDecode
    rw [hInt, if_pos ?_]
    exact ⟨i, hmem, rfl, h1, by rw [hA]; exact h2⟩

/-- C3 witness: endpoint 2 with its IN interrupt bit (bit 5) set and the
hardware inactive is classified and its interrupt bit is cleared. -/
theorem C3_witness : (poll 2 c3State).1.intstat (2 * 2 + 1) = false :=
  (C3_in_classification 2 c3State 2 (by decide) (by decide) (by decide)
    rfl rfl rfl).2.2 (by decide) rfl

/-- Reading back the entry just written into a list. -/
theorem getD_set_self {α : Type _} (l : List α) (i : Nat) (x d : α) (h : i < l.length) :
    (l.set i x).getD i d = x := by
  induction l generalizing i with
  | nil => simp at h
  | cons a as ih =>
    cases i with
    | zero => rfl
    | succ n =>
      simp only [List.set, List.getD_eq_getElem?_getD, List.getElem?_cons_succ]
      have := ih n (by simpa using h)
      simpa [List.getD_eq_getElem?_getD] using this

/-- A successful OUT allocation step of alloc_ep: with the OUT binding
unset and enough SRAM for the buffer (and, for endpoint 0, the 8-byte
SETUP buffer), allocDirStep returns the address and binds a buffer of
max_packet_size bytes (+1 for endpoint 0), plus the SETUP buffer for
endpoint 0. -/
theorem allocDirStep_out (mps i : Nat) (ep1 : Endpoint) (bus1 : UsbHSBus)
    (hmps : mps + 1 < 2 ^ 16)
    (hout : ep1.out_buf = none)
    (hlen : i < bus1.endpoints.length)
    (h4 : alignedOffset bus1.ep_allocator.next_free_offset +
        (if i = 0 then mps + 1 else mps) ≤ EP_MEM_SIZE)
    (h5 : i = 0 →
      alignedOffset (alignedOffset bus1.ep_allocator.next_free_offset + (mps + 1)) + 8 ≤
        EP_MEM_SIZE) :
    ∃ bus2, allocDirStep .Out mps i ep1 bus1 = .done (bus2, .ok ⟨i, .Out⟩)
      ∧ (∃ ob, (bus2.endpoints.getD i (Endpoint.new i)).out_buf = some ob ∧
          ob.capacity = (if i = 0 then mps + 1 else mps))
      ∧ (i = 0 → ∃ sb, (bus2.endpoints.getD 0 (Endpoint.new 0)).setup_buf = some sb ∧
          sb.capacity = 8) := by
  have hobs : ¬ ep1.is_out_buf_set = true := by
    simp [Endpoint.is_out_buf_set, hout]
  have hsz : (mps + 1) % 2 ^ 16 = mps + 1 := Nat.mod_eq_of_lt hmps
  by_cases hi : i = 0
  · subst hi
    rw [if_pos rfl] at h4
    have h00 : (if (0 : Nat) = 0 then (mps + 1) % 2 ^ 16 else mps) = mps + 1 := by
      rw [if_pos rfl, hsz]
    have ha1 : bus1.ep_allocator.allocate_buffer (mps + 1) =
        (⟨alignedOffset bus1.ep_allocator.next_free_offset + (mps + 1)⟩,
          .ok ⟨alignedOffset bus1.ep_allocator.next_free_offset, mps + 1⟩) := by
      rw [allocate_buffer_eq, if_neg (by omega)]
    have ha2 : (EndpointMemoryAllocator.mk
          (alignedOffset bus1.ep_allocator.next_free_offset + (mps + 1))).allocate_buffer 8 =
        (⟨alignedOffset (alignedOffset bus1.ep_allocator.next_free_offset + (mps + 1)) + 8⟩,
          .ok ⟨alignedOffset (alignedOffset bus1.ep_allocator.next_free_offset + (mps + 1)), 8⟩) := by
      rw [allocate_buffer_eq]
      dsimp only
      rw [if_neg (by have := h5 rfl; omega)]
    unfold allocDirStep
    rw [if_neg hobs, h00, ha1]
    dsimp only
    rw [ha2, if_pos (rfl : (0 : Nat) = 0)]
    dsimp only
    refine ⟨_, rfl, ?_, ?_⟩
    · refine ⟨⟨alignedOffset bus1.ep_allocator.next_free_offset, mps + 1⟩, ?_, ?_⟩
      · rw [getD_set_self _ 0 _ _ (by simpa using hlen)]
        simp [Endpoint.set_out_buf, Endpoint.set_setup_buf]
      · rw [if_pos rfl]
    · intro _
      refine ⟨⟨alignedOffset (alignedOffset bus1.ep_allocator.next_free_offset + (mps + 1)), 8⟩, ?_, rfl⟩
      rw [getD_set_self _ 0 _ _ (by simpa using hlen)]
      simp [Endpoint.set_setup_buf]
  · rw [if_neg hi] at h4
    have ha1 : bus1.ep_allocator.allocate_buffer mps =
        (⟨alignedOffset bus1.ep_allocator.next_free_offset + mps⟩,
          .ok ⟨alignedOffset bus1.ep_allocator.next_free_offset, mps⟩) := by
      rw [allocate_buffer_eq, if_neg (by omega)]
    unfold allocDirStep
    rw [if_neg hobs]
    rw [if_neg hi]
    rw [ha1]
    dsimp only
    rw [if_neg hi]
    refine ⟨_, rfl, ?_, ?_⟩
    · refine ⟨⟨alignedOffset bus1.ep_allocator.next_free_offset, mps⟩, ?_, ?_⟩
      · rw [getD_set_self _ i _ _ (by simpa using hlen)]
        simp [Endpoint.set_out_buf]
      · rw [if_neg hi]
    · intro h0
      exact absurd h0 hi

/-- C6 (amended): for a fixed-address OUT allocation on an endpoint with
no OUT buffer (type unset or matching), alloc_ep binds a buffer of
max_packet_size bytes — max_packet_size + 1 for endpoint 0, which also
gets an 8-byte SETUP buffer — and returns the OUT address; allocating
OUT then IN with fixed address 0 on a fresh bus yields a control
endpoint with OUT, SETUP and IN buffers all bound (the unaddressed scan
never visits endpoint 0, so such a request must carry address 0). -/
theorem C6_alloc_ep :
    (∀ (bus : UsbHSBus) (i : Nat) (t : EndpointType) (mps : Nat),
      mps + 1 < 2 ^ 16 →
      i < bus.endpoints.length →
      ((bus.endpoints.getD i (Endpoint.new i)).ep_type = none ∨
        (bus.endpoints.getD i (Endpoint.new i)).ep_type = some t) →
      (bus.endpoints.getD i (Endpoint.new i)).out_buf = none →
      alignedOffset bus.ep_allocator.next_free_offset +
          (if i = 0 then mps + 1 else mps) ≤ EP_MEM_SIZE →
      (i = 0 →
        alignedOffset (alignedOffset bus.ep_allocator.next_free_offset + (mps + 1)) + 8 ≤
          EP_MEM_SIZE) →
      ∃ bus1, bus.alloc_ep .Out (some i) t mps = some (bus1, .ok ⟨i, .Out⟩)
        ∧ (∃ ob, (bus1.endpoints.getD i (Endpoint.new i)).out_buf = some ob ∧
            ob.capacity = (if i = 0 then mps + 1 else mps))
        ∧ (i = 0 → ∃ sb, (bus1.endpoints.getD 0 (Endpoint.new 0)).setup_buf = some sb ∧
            sb.capacity = 8))
    ∧ ((c6FixedBus2.endpoints.getD 0 (Endpoint.new 0)).ep_type = some .Control
      ∧ (c6FixedBus2.endpoints.getD 0 (Endpoint.new 0)).out_buf = some ⟨128, 65⟩
      ∧ (c6FixedBus2.endpoints.getD 0 (Endpoint.new 0)).setup_buf = some ⟨256, 8⟩
      ∧ (c6FixedBus2.endpoints.getD 0 (Endpoint.new 0)).in_buf = some ⟨320, 64⟩) := by
  constructor
  · intro bus i t mps hmps hlen htype hout h4 h5
    unfold UsbHSBus.alloc_ep UsbHSBus.alloc_ep_go UsbHSBus.alloc_ep_step
    dsimp only [Option.isSome]
    rw [if_pos hlen]
    rcases htype with hty | hty
    · obtain ⟨bus2, hstep, hob, hsb⟩ :=
        allocDirStep_out mps i ((bus.endpoints.getD i (Endpoint.new i)).set_ep_type t)
          { bus with endpoints := bus.endpoints.set i ((bus.endpoints.getD i (Endpoint.new i)).set_ep_type t) }
          hmps (by simp only [Endpoint.set_ep_type]; exact hout) (by simpa using hlen) h4 h5
      rw [hty]
      dsimp only
      rw [hstep]
      exact ⟨bus2, rfl, hob, hsb⟩
    · obtain ⟨bus2, hstep, hob, hsb⟩ :=
        allocDirStep_out mps i (bus.endpoints.getD i (Endpoint.new i))
          { bus with endpoints := bus.endpoints.set i (bus.endpoints.getD i (Endpoint.new i)) }
          hmps hout (by simpa using hlen) h4 h5
      rw [hty]
      dsimp only
      rw [if_neg (by simp : ¬ t ≠ t)]
      rw [hstep]
      exact ⟨bus2, rfl, hob, hsb⟩

  · refine ⟨by decide, by decide, by decide, by decide⟩

/-- C6 counterexample: two unaddressed alloc_ep calls (OUT then IN) on a
fresh bus never reach endpoint 0 — the first returns endpoint address 1
and endpoint 0 is left with no OUT, SETUP or IN buffer bound — so an
unaddressed request cannot yield the claimed fully bound control
endpoint 0. -/
theorem C6_counterexample :
    c6Addr1 = some ⟨1, UsbDirection.Out⟩
    ∧ (c6Bus2.endpoints.getD 0 (Endpoint.new 0)).out_buf = none
    ∧ (c6Bus2.endpoints.getD 0 (Endpoint.new 0)).setup_buf = none
    ∧ (c6Bus2.endpoints.getD 0 (Endpoint.new 0)).in_buf = none := by
  refine ⟨by decide, by decide, by decide, by decide⟩

/-- C6 witness: the general OUT-allocation part applied to endpoint 0 of
a fresh bus. -/
theorem C6_witness :
    ∃ bus1, UsbHSBus.new.alloc_ep .Out (some 0) .Control 64 = some (bus1, .ok ⟨0, .Out⟩)
      ∧ (∃ ob, (bus1.endpoints.getD 0 (Endpoint.new 0)).out_buf = some ob ∧
          ob.capacity = (if 0 = 0 then 64 + 1 else 64))
      ∧ (0 = 0 → ∃ sb, (bus1.endpoints.getD 0 (Endpoint.new 0)).setup_buf = some sb ∧
          sb.capacity = 8) :=
  C6_alloc_ep.1 UsbHSBus.new 0 .Control 64 (by decide) (by decide) (Or.inl (by decide))
    (by decide) (by decide) (fun _ => by decide)

/-- C9 (amended): the read dispatch rejects any non-OUT address with
InvalidEndpoint before touching endpoint or hardware state, and the
write dispatch likewise rejects any non-IN address; an address with the
matching direction whose index is out of range (at or above the number
of endpoints) makes the dispatch panic on the out-of-bounds index rather
than return InvalidEndpoint; in-range matching addresses are delegated
to the addressed endpoint controller. -/
theorem C9_dispatch (bus : UsbHSBus) (a : EndpointAddress) :
    (a.is_out = false → bus.read a = DispatchOutcome.err UsbError.InvalidEndpoint)
    ∧ (a.is_in = false → bus.write a = DispatchOutcome.err UsbError.InvalidEndpoint)
    ∧ (a.is_out = true → bus.endpoints.length ≤ a.index → bus.read a = DispatchOutcome.oob)
    ∧ (a.is_in = true → bus.endpoints.length ≤ a.index → bus.write a = DispatchOutcome.oob)
    ∧ (a.is_out = true → a.index < bus.endpoints.length →
        bus.read a = DispatchOutcome.delegated a.index)
    ∧ (a.is_in = true → a.index < bus.endpoints.length →
        bus.write a = DispatchOutcome.delegated a.index) := by
  unfold UsbHSBus.read UsbHSBus.write
  refine ⟨?_, ?_, ?_, ?_, ?_, ?_⟩
  · intro h1
    simp [h1]
  · intro h1
    simp [h1]
  · intro h1 h2
    simp [h1, Nat.not_lt.mpr h2]
  · intro h1 h2
    simp [h1, Nat.not_lt.mpr h2]
  · intro h1 h2
    simp [h1, h2]
  · intro h1 h2
    simp [h1, h2]

/-- C9 counterexample: a read at OUT address with index 6 (one past the
last endpoint) panics on the out-of-bounds index instead of returning
the InvalidEndpoint error. -/
theorem C9_counterexample :
    UsbHSBus.new.read ⟨6, UsbDirection.Out⟩ = DispatchOutcome.oob
    ∧ UsbHSBus.new.read ⟨6, UsbDirection.Out⟩ ≠
        DispatchOutcome.err UsbError.InvalidEndpoint := by
  refine ⟨by decide, by decide⟩

/-- C9 witness: a wrong-direction read is rejected and an out-of-range
write panics. -/
theorem C9_witness :
    UsbHSBus.new.read ⟨1, UsbDirection.In⟩ = DispatchOutcome.err UsbError.InvalidEndpoint
    ∧ UsbHSBus.new.write ⟨7, UsbDirection.In⟩ = DispatchOutcome.oob :=
  ⟨(C9_dispatch UsbHSBus.new ⟨1, UsbDirection.In⟩).1 rfl,
    (C9_dispatch UsbHSBus.new ⟨7, UsbDirection.In⟩).2.2.2.1 rfl (by decide)⟩

/-- C8 witness: concrete round trip, truncation and oversized read. -/
theorem C8_witness :
    EndpointBuffer.read (EndpointBuffer.write [0, 0, 0] [1, 2]) [9, 9] = [1, 2]
    ∧ EndpointBuffer.write [0, 0] [1, 2, 3] = List.take 2 [1, 2, 3]
    ∧ EndpointBuffer.read [1, 2] [7, 7, 7] = [1, 2] ++ List.drop 2 [7, 7, 7] :=
  ⟨(C8_roundtrip [0, 0, 0] [1, 2] [9, 9]).1 (by decide) (by decide),
    (C8_roundtrip [0, 0] [1, 2, 3] []).2.1 (by decide),
    (C8_roundtrip [1, 2] [] [7, 7, 7]).2.2 (by decide)⟩

end LpcUsbHS
